import Mathlib

/-!
Shallow embedding of the merge/normalization core of a declarative
network-configuration reconciler (nmstate), together with theorems about
its overlay, route-normalization, apply-translation and deletion-pass
logic.  Definitions are translated from the Rust sources under
`rust/src/lib`; types whose declarations are not part of the sampled
sources are modelled from the design specification and marked as such.
-/

/-! ## Attribute-name constants (the `prop_list` keys of `BaseInterface::update`) -/

def pName : String := "name"

def pDescription : String := "description"

def pIfaceType : String := "iface_type"

def pState : String := "state"

def pMtu : String := "mtu"

def pMinMtu : String := "min_mtu"

def pMaxMtu : String := "max_mtu"

def pMacAddress : String := "mac_address"

def pPermanentMacAddress : String := "permanent_mac_address"

def pController : String := "controller"

def pControllerType : String := "controller_type"

def pAcceptAllMacAddresses : String := "accept_all_mac_addresses"

def pOvsdb : String := "ovsdb"

def pIeee8021x : String := "ieee8021x"

def pLldp : String := "lldp"

def pEthtool : String := "ethtool"

def pMptcp : String := "mptcp"

def pWaitIp : String := "wait_ip"

def pIpv4 : String := "ipv4"

def pIpv6 : String := "ipv6"

/-- Modelled from the spec: interface kinds of the entity model
(`InterfaceType`; its declaration is outside the sampled sources, its
variants are listed in the spec's data model). -/
inductive InterfaceType where
  | Ethernet
  | Bond
  | LinuxBridge
  | OvsBridge
  | OvsInterface
  | Vlan
  | Vxlan
  | MacVlan
  | MacVtap
  | Vrf
  | Veth
  | Dummy
  | Loopback
  | InfiniBand
  | IpVlan
  | Hsr
  | MacSec
  | Ipsec
  | Unknown
  deriving DecidableEq, Repr

/-- Modelled from the spec: administrative state of an interface
(Up/Down/Absent/Ignore). -/
inductive InterfaceState where
  | Up
  | Down
  | Absent
  | Ignore
  deriving DecidableEq, Repr

/-- Copy `o` over `s` when the guard holds, mirroring the Rust pattern
`if other.prop_list.contains(name) { self.f = other.f }`. -/
def copyIf (c : Prop) [Decidable c] (s o : α) : α :=
  if c then o else s

/-- Insert-if-absent on a list of strings, mirroring
`if !set.contains(x) { set.insert(x) }` (and `Vec` push-if-absent). -/
def hsInsert (a : List String) (x : String) : List String :=
  if x ∈ a then a else a ++ [x]

/-- The `prop_list` union loop at the end of the overlay functions:
for each name in `b`, push it onto `a` unless already present. -/
def unionProps (a b : List String) : List String :=
  b.foldl hsInsert a

/-- Modelled from the spec: the IPv4/IPv6 nested configuration block.
Its concrete struct declaration is outside the sampled sources; the spec
describes it as a record of per-field values plus its own touched-name
set, merged field-by-field under the same touched-set rule as the base
interface. -/
structure InterfaceIp where
  enabled : Option Bool
  dhcp : Option Bool
  addresses : Option (List String)
  prop_list : List String
  deriving DecidableEq, Repr

def ipEnabled : String := "enabled"

def ipDhcp : String := "dhcp"

def ipAddresses : String := "addresses"

/-- Modelled from the spec: the nested IP block overlay — for every
attribute name present in the other side's touched set, copy the other
side's value; afterwards the touched set becomes the union of both. -/
def InterfaceIp.update (s o : InterfaceIp) : InterfaceIp :=
  { enabled := copyIf (ipEnabled ∈ o.prop_list) s.enabled o.enabled
    dhcp := copyIf (ipDhcp ∈ o.prop_list) s.dhcp o.dhcp
    addresses := copyIf (ipAddresses ∈ o.prop_list) s.addresses o.addresses
    prop_list := unionProps s.prop_list o.prop_list }

/-- The IPv4/IPv6 branch of `BaseInterface::update`: when touched, a
present other-side block either merges into a present self block or
replaces an absent one; an absent other-side block leaves self as is. -/
def updateIpOpt (c : Prop) [Decidable c] (s o : Option InterfaceIp) :
    Option InterfaceIp :=
  if c then
    match o with
    | none => s
    | some oip =>
      match s with
      | some sip => some (sip.update oip)
      | none => some oip
  else s

/-- The common part of every interface variant.  Field list is taken
from the copies performed by `BaseInterface::update`
(rust/src/lib/query_apply/base.rs); payload types whose declarations are
outside the sampled sources are modelled as opaque option-of-string
blobs, faithful to the fact that `update` copies them wholesale. -/
structure BaseInterface where
  name : String
  description : Option String
  iface_type : InterfaceType
  state : InterfaceState
  mtu : Option Nat
  min_mtu : Option Nat
  max_mtu : Option Nat
  mac_address : Option String
  permanent_mac_address : Option String
  controller : Option String
  controller_type : Option InterfaceType
  accept_all_mac_addresses : Option Bool
  ovsdb : Option String
  ieee8021x : Option String
  lldp : Option String
  ethtool : Option String
  mptcp : Option String
  wait_ip : Option Nat
  ipv4 : Option InterfaceIp
  ipv6 : Option InterfaceIp
  prop_list : List String
  deriving DecidableEq, Repr

/-- `BaseInterface::update` (rust/src/lib/query_apply/base.rs): copy
every touched attribute from `o` onto `s` (interface type only when not
Unknown; the IP blocks merge per `updateIpOpt`; `mptcp` is copied twice
in the source, with identical effect), then union the prop lists. -/
def BaseInterface.update (s o : BaseInterface) : BaseInterface :=
  { name := copyIf (pName ∈ o.prop_list) s.name o.name
    description :=
      copyIf (pDescription ∈ o.prop_list) s.description o.description
    iface_type :=
      copyIf (pIfaceType ∈ o.prop_list ∧ o.iface_type ≠ InterfaceType.Unknown)
        s.iface_type o.iface_type
    state := copyIf (pState ∈ o.prop_list) s.state o.state
    mtu := copyIf (pMtu ∈ o.prop_list) s.mtu o.mtu
    min_mtu := copyIf (pMinMtu ∈ o.prop_list) s.min_mtu o.min_mtu
    max_mtu := copyIf (pMaxMtu ∈ o.prop_list) s.max_mtu o.max_mtu
    mac_address :=
      copyIf (pMacAddress ∈ o.prop_list) s.mac_address o.mac_address
    permanent_mac_address :=
      copyIf (pPermanentMacAddress ∈ o.prop_list) s.permanent_mac_address
        o.permanent_mac_address
    controller := copyIf (pController ∈ o.prop_list) s.controller o.controller
    controller_type :=
      copyIf (pControllerType ∈ o.prop_list) s.controller_type
        o.controller_type
    accept_all_mac_addresses :=
      copyIf (pAcceptAllMacAddresses ∈ o.prop_list) s.accept_all_mac_addresses
        o.accept_all_mac_addresses
    ovsdb := copyIf (pOvsdb ∈ o.prop_list) s.ovsdb o.ovsdb
    ieee8021x := copyIf (pIeee8021x ∈ o.prop_list) s.ieee8021x o.ieee8021x
    lldp := copyIf (pLldp ∈ o.prop_list) s.lldp o.lldp
    ethtool := copyIf (pEthtool ∈ o.prop_list) s.ethtool o.ethtool
    mptcp := copyIf (pMptcp ∈ o.prop_list) s.mptcp o.mptcp
    wait_ip := copyIf (pWaitIp ∈ o.prop_list) s.wait_ip o.wait_ip
    ipv4 := updateIpOpt (pIpv4 ∈ o.prop_list) s.ipv4 o.ipv4
    ipv6 := updateIpOpt (pIpv6 ∈ o.prop_list) s.ipv6 o.ipv6
    prop_list := unionProps s.prop_list o.prop_list }
/-! ## Kernel-route model (rust/src/lib/nispor/route.rs) -/

/-- Address family of a kernel route (`nispor::AddressFamily`; variants
beyond IPv4/IPv6 are collapsed into `Other`, matching the wildcard arms
of the source). -/
inductive AddressFamily where
  | IPv4
  | IPv6
  | Other (code : Nat)
  deriving DecidableEq, Repr

/-- Kernel route type (`nispor::RouteType`); variants beyond the ones the
source matches on are collapsed into `Other`. -/
inductive NpRouteType where
  | BlackHole
  | Unreachable
  | Prohibit
  | Unicast
  | Other (code : Nat)
  deriving DecidableEq, Repr

/-- Kernel route scope (`nispor::RouteScope`). -/
inductive RouteScope where
  | Universe
  | Link
  | Host
  | Other (code : Nat)
  deriving DecidableEq, Repr

/-- Kernel route protocol (`nispor::RouteProtocol`). -/
inductive RouteProtocol where
  | Boot
  | Static
  | Ra
  | Dhcp
  | Mrouted
  | KeepAlived
  | Babel
  | Other (code : Nat)
  deriving DecidableEq, Repr

/-- One next hop of a kernel multipath route
(`nispor::MultipathRoute`: via, iface, weight). -/
structure MultipathRoute where
  via : String
  iface : String
  weight : Nat
  deriving DecidableEq, Repr

/-- A kernel route record (`nispor::Route`), with the fields read by
rust/src/lib/nispor/route.rs; addresses are modelled as their string
renderings. -/
structure NpRoute where
  address_family : AddressFamily
  dst : Option String
  oif : Option String
  via : Option String
  gateway : Option String
  prefered_src : Option String
  metric : Option Nat
  table : Nat
  lock : Option Nat
  cwnd : Option Nat
  route_type : NpRouteType
  scope : RouteScope
  protocol : RouteProtocol
  multipath : Option (List MultipathRoute)
  deriving DecidableEq, Repr

def IPV4_DEFAULT_GATEWAY : String := "0.0.0.0/0"

def IPV6_DEFAULT_GATEWAY : String := "::/0"

def IPV4_EMPTY_NEXT_HOP_ADDRESS : String := "0.0.0.0"

def IPV6_EMPTY_NEXT_HOP_ADDRESS : String := "::"

def RTAX_CWND : Nat := 7

def SUPPORTED_ROUTE_SCOPE : List RouteScope :=
  [RouteScope.Universe, RouteScope.Link]

def SUPPORTED_ROUTE_PROTOCOL : List RouteProtocol :=
  [RouteProtocol.Boot, RouteProtocol.Static, RouteProtocol.Ra,
   RouteProtocol.Dhcp, RouteProtocol.Mrouted, RouteProtocol.KeepAlived,
   RouteProtocol.Babel]

def SUPPORTED_STATIC_ROUTE_PROTOCOL : List RouteProtocol :=
  [RouteProtocol.Boot, RouteProtocol.Static]

/-- Modelled from the spec: the route kinds of the entity model
(Blackhole/Unreachable/Prohibit/Unicast); the declaration of the
`RouteType` enum is outside the sampled sources. -/
inductive RouteType where
  | Blackhole
  | Unreachable
  | Prohibit
  | Unicast
  deriving DecidableEq, Repr

/-- Modelled from the spec: explicit absence is a first-class state of a
route entry (the `RouteEntry` state field is outside the sampled
sources). -/
inductive RouteState where
  | Absent
  deriving DecidableEq, Repr

/-- Modelled from the spec: a flat route entry of the entity model
(`RouteEntry`); field list follows the fields assigned and read by
rust/src/lib/nispor/route.rs. -/
structure RouteEntry where
  destination : Option String
  next_hop_iface : Option String
  next_hop_addr : Option String
  source : Option String
  metric : Option Int
  table_id : Option Nat
  route_type : Option RouteType
  cwnd : Option Nat
  weight : Option Nat
  state : Option RouteState
  deriving DecidableEq, Repr

/-- `RouteEntry::new()`: the all-unset route entry. -/
def RouteEntry.new : RouteEntry :=
  { destination := none
    next_hop_iface := none
    next_hop_addr := none
    source := none
    metric := none
    table_id := none
    route_type := none
    cwnd := none
    weight := none
    state := none }

/-- `RouteEntry::is_absent`: the entry is explicitly marked absent. -/
def RouteEntry.is_absent (r : RouteEntry) : Bool :=
  r.state = some RouteState.Absent

/-- `np_routetype_to_nmstate`: normalize a blackhole/unreachable/prohibit
kernel route; synthesizes a default destination by family, keeps the
next-hop interface only for IPv6, and gates cwnd on lock bit 7. -/
def npRoutetypeToNmstate (r : NpRoute) : RouteEntry :=
  let destination : Option String :=
    match r.dst with
    | some d => some d
    | none =>
      match r.address_family with
      | AddressFamily.IPv4 => some IPV4_DEFAULT_GATEWAY
      | AddressFamily.IPv6 => some IPV6_DEFAULT_GATEWAY
      | _ => none
  { RouteEntry.new with
    destination := destination
    next_hop_iface :=
      if r.address_family = AddressFamily.IPv6 then r.oif else none
    metric := r.metric.map (fun m => (m : Int))
    table_id := some r.table
    route_type :=
      match r.route_type with
      | NpRouteType.BlackHole => some RouteType.Blackhole
      | NpRouteType.Unreachable => some RouteType.Unreachable
      | NpRouteType.Prohibit => some RouteType.Prohibit
      | _ => none
    cwnd :=
      if Nat.land (r.lock.getD 0) (1 <<< RTAX_CWND) ≠ 0 then r.cwnd
      else none }

/-- `np_route_to_nmstate`: normalize an ordinary kernel route;
synthesizes a default destination and a default next-hop address by
family, and gates cwnd on lock bit 7. -/
def npRouteToNmstate (r : NpRoute) : RouteEntry :=
  let destination : Option String :=
    match r.dst with
    | some d => some d
    | none =>
      match r.address_family with
      | AddressFamily.IPv4 => some IPV4_DEFAULT_GATEWAY
      | AddressFamily.IPv6 => some IPV6_DEFAULT_GATEWAY
      | _ => none
  let next_hop_addr : Option String :=
    match r.via with
    | some v => some v
    | none =>
      match r.gateway with
      | some g => some g
      | none =>
        match r.address_family with
        | AddressFamily.IPv4 => some IPV4_EMPTY_NEXT_HOP_ADDRESS
        | AddressFamily.IPv6 => some IPV6_EMPTY_NEXT_HOP_ADDRESS
        | _ => none
  { RouteEntry.new with
    destination := destination
    next_hop_iface := r.oif
    next_hop_addr := next_hop_addr
    source := r.prefered_src
    metric := r.metric.map (fun m => (m : Int))
    table_id := some r.table
    cwnd :=
      if Nat.land (r.lock.getD 0) (1 <<< RTAX_CWND) ≠ 0 then r.cwnd
      else none }

/-- `is_multipath`: the kernel route carries a non-empty multipath list. -/
def isMultipath (r : NpRoute) : Bool :=
  match r.multipath with
  | some m => !m.isEmpty
  | none => false

/-- `flat_multipath_route`: expand a multipath route into one flat entry
per next hop, overriding via/oif from the hop and keeping the hop's
weight only for IPv4. -/
def flatMultipathRoute (r : NpRoute) : List RouteEntry :=
  match r.multipath with
  | none => []
  | some hops =>
    hops.map fun h =>
      let nr := { r with via := some h.via, oif := some h.iface }
      let e := npRouteToNmstate nr
      if r.address_family = AddressFamily.IPv4 then
        { e with weight := some h.weight }
      else e

/-- The `route_type` filter array local to `get_routes`. -/
def routeTypeFilter : List NpRouteType :=
  [NpRouteType.BlackHole, NpRouteType.Unreachable, NpRouteType.Prohibit]

/-- The per-route body of the two collection loops of `get_routes`:
multipath routes are flattened, blackhole-kind routes go through
`np_routetype_to_nmstate`, other routes only when they name an outgoing
interface. -/
def collectRoutes (rs : List NpRoute) : List RouteEntry :=
  rs.foldl
    (fun acc r =>
      if isMultipath r then acc ++ flatMultipathRoute r
      else if r.route_type ∈ routeTypeFilter then
        acc ++ [npRoutetypeToNmstate r]
      else if r.oif.isSome then acc ++ [npRouteToNmstate r]
      else acc)
    []

/-- The `Routes` pair returned by `get_routes`. -/
structure Routes where
  running : Option (List RouteEntry)
  config : Option (List RouteEntry)
  deriving DecidableEq, Repr

/-- The pure part of `get_routes`: given the kernel routes already
fetched, apply the scope filter (running view) and the scope+protocol
filter (config view) and collect. -/
def getRoutesPure (running_config_only : Bool) (npRoutes : List NpRoute) :
    Routes :=
  { running :=
      if running_config_only then none
      else
        some (collectRoutes (npRoutes.filter
          fun r => decide (r.scope ∈ SUPPORTED_ROUTE_SCOPE)))
    config :=
      some (collectRoutes (npRoutes.filter
        fun r => decide (r.scope ∈ SUPPORTED_ROUTE_SCOPE
          ∧ r.protocol ∈ SUPPORTED_STATIC_ROUTE_PROTOCOL))) }

/-! ## Outbound translation (desired route → nispor apply format) -/

/-- Error kinds of the error taxonomy. -/
inductive ErrorKind where
  | InvalidArgument
  | NotImplementedError
  | Bug
  | BackendError
  deriving DecidableEq, Repr

/-- A structured error (`NmstateError`): kind plus message. -/
structure NmstateError where
  kind : ErrorKind
  msg : String
  deriving DecidableEq, Repr

def msgTableId : String :=
  "nispor apply does not support route table ID bigger than 255 yet"

def msgWeight : String :=
  "nispor apply does not support route weight yet"

def msgRouteType : String :=
  "nispor apply does not support route type yet"

def msgCwnd : String :=
  "nispor apply does not support route congestion window yet"

/-- `nispor::RouteConf` as populated by the outbound translation. -/
structure NisporRouteConf where
  remove : Bool
  dst : String
  oif : Option String
  via : Option String
  metric : Option Nat
  table : Option Nat
  deriving DecidableEq, Repr

/-- The table-id step of `nmstate_to_nispor_route_conf`: a desired table
id above `u8::MAX` is a `NotImplementedError` (early return in the
source); otherwise it is carried over. -/
def tableCheck (r : RouteEntry) : Except NmstateError (Option Nat) :=
  match r.table_id with
  | some tid =>
    if 255 < tid then
      Except.error ⟨ErrorKind.NotImplementedError, msgTableId⟩
    else Except.ok (some tid)
  | none => Except.ok none

/-- `nmstate_to_nispor_route_conf`: translate a desired route entry to
the nispor apply format; rejects table ids above `u8::MAX`, any weight,
any explicit route type and any congestion window with a
`NotImplementedError`. -/
def nmstateToNisporRouteConf (r : RouteEntry) :
    Except NmstateError NisporRouteConf :=
  match tableCheck r with
  | Except.error e => Except.error e
  | Except.ok t =>
    if r.weight.isSome then
      Except.error ⟨ErrorKind.NotImplementedError, msgWeight⟩
    else if r.route_type.isSome then
      Except.error ⟨ErrorKind.NotImplementedError, msgRouteType⟩
    else if r.cwnd.isSome then
      Except.error ⟨ErrorKind.NotImplementedError, msgCwnd⟩
    else
      Except.ok
        { remove := r.is_absent
          dst := r.destination.getD ""
          oif := r.next_hop_iface
          via := r.next_hop_addr
          metric :=
            r.metric.bind fun m =>
              if 0 ≤ m ∧ m < 4294967296 then some m.toNat else none
          table := t }

/-- `gen_nispor_route_confs` over the changed routes of a merged route
set: translate each in order, aborting on the first error. -/
def genNisporRouteConfs : List RouteEntry →
    Except NmstateError (List NisporRouteConf)
  | [] => Except.ok []
  | r :: rest =>
    match nmstateToNisporRouteConf r with
    | Except.error e => Except.error e
    | Except.ok c =>
      match genNisporRouteConfs rest with
      | Except.error e => Except.error e
      | Except.ok cs => Except.ok (c :: cs)
/-! ## NetworkManager profile model (rust/src/lib/nm) -/

/-- NM interface/profile types (`NmIfaceType`); variants used by the
deletion pass plus the remaining kinds named by the spec. -/
inductive NmIfaceType where
  | Ethernet
  | Bridge
  | Bond
  | OvsPort
  | OvsBridge
  | OvsIface
  | Veth
  | Vlan
  | Vxlan
  | Vrf
  | Vpn
  | Dummy
  | Loopback
  | Macvlan
  | Macsec
  | Infiniband
  | Ipvlan
  | Hsr
  | Unknown
  deriving DecidableEq, Repr

/-- An NM connection profile (`NmConnection`), with the accessors read
by the deletion pass: uuid, profile id, interface name and type,
controller name/type, and the wired MAC address. -/
structure NmConnection where
  uuid : Option String
  id : Option String
  iface_name : Option String
  iface_type : Option NmIfaceType
  controller : Option String
  controller_type : Option NmIfaceType
  wired_mac : Option String
  deriving DecidableEq, Repr

/-- How an interface is identified (`InterfaceIdentifier`): by its name
or by its MAC address. -/
inductive InterfaceIdentifier where
  | Name
  | MacAddress
  deriving DecidableEq, Repr

/-- The slice of a current interface read by the deletion pass:
identifier mode, configured profile name, kernel name and MAC. -/
structure CurrentIfaceView where
  name : String
  identifier : Option InterfaceIdentifier
  profile_name : Option String
  mac_address : Option String
  deriving DecidableEq, Repr

/-- The slice of a merged interface value read by the deletion pass. -/
structure IfaceView where
  name : String
  iface_type : InterfaceType
  state : InterfaceState
  deriving DecidableEq, Repr

/-- `is_absent` on a merged interface: its administrative state is
Absent. -/
def IfaceView.is_absent (v : IfaceView) : Bool :=
  v.state = InterfaceState.Absent

/-- One entry of `MergedInterfaces` as consumed by `delete_ifaces`:
change flag, merged view, optional current view. -/
structure MergedIface where
  is_changed : Bool
  merged : IfaceView
  current : Option CurrentIfaceView
  deriving DecidableEq, Repr

/-- Modelled from the spec: `iface_type_to_nm`, the mapping from entity
interface kinds to NM profile types (its definition is outside the
sampled sources; the spec gives no failure case for the kinds it
lists). -/
def ifaceTypeToNm : InterfaceType → NmIfaceType
  | InterfaceType.Ethernet => NmIfaceType.Ethernet
  | InterfaceType.Bond => NmIfaceType.Bond
  | InterfaceType.LinuxBridge => NmIfaceType.Bridge
  | InterfaceType.OvsBridge => NmIfaceType.OvsBridge
  | InterfaceType.OvsInterface => NmIfaceType.OvsIface
  | InterfaceType.Vlan => NmIfaceType.Vlan
  | InterfaceType.Vxlan => NmIfaceType.Vxlan
  | InterfaceType.MacVlan => NmIfaceType.Macvlan
  | InterfaceType.MacVtap => NmIfaceType.Macvlan
  | InterfaceType.Vrf => NmIfaceType.Vrf
  | InterfaceType.Veth => NmIfaceType.Veth
  | InterfaceType.Dummy => NmIfaceType.Dummy
  | InterfaceType.Loopback => NmIfaceType.Loopback
  | InterfaceType.InfiniBand => NmIfaceType.Infiniband
  | InterfaceType.IpVlan => NmIfaceType.Ipvlan
  | InterfaceType.Hsr => NmIfaceType.Hsr
  | InterfaceType.MacSec => NmIfaceType.Macsec
  | InterfaceType.Ipsec => NmIfaceType.Vpn
  | InterfaceType.Unknown => NmIfaceType.Unknown

/-- `create_index_for_nm_conns_by_name_type` followed by a lookup:
the profiles whose interface name and type match the key. -/
def connsByNameType (conns : List NmConnection) (name : String)
    (t : NmIfaceType) : List NmConnection :=
  conns.filter fun c =>
    decide (c.iface_name = some name ∧ c.iface_type = some t)

/-- Modelled from the spec: `is_uuid` recognizes a profile reference in
canonical 36-character dashed UUID form (its definition is outside the
sampled sources). -/
def is_uuid (s : String) : Bool :=
  let cs := s.toList
  cs.length = 36 && ([8, 13, 18, 23].all fun i => cs.getD i ' ' = '-')

/-- Modelled from the spec: `get_match_ipsec_nm_conn` — an IPsec-type
interface maps to possibly multiple VPN-type backend profiles matched by
name (its definition is outside the sampled sources). -/
def getMatchIpsecNmConn (name : String) (conns : List NmConnection) :
    List NmConnection :=
  conns.filter fun c =>
    decide (c.iface_type = some NmIfaceType.Vpn ∧ c.id = some name)

/-- Insert a profile's uuid, when present, into the delete set
(`HashSet` insert, modelled as append-if-absent). -/
def insertUuid (acc : List String) : Option String → List String
  | some u => hsInsert acc u
  | none => acc

/-- Insert the uuids of a list of profiles into the delete set. -/
def insertConnUuids (acc : List String) (cs : List NmConnection) :
    List String :=
  cs.foldl (fun a c => insertUuid a c.uuid) acc

/-- The profiles matched for one absent interface in `delete_ifaces`
(non-IPsec branch): by name for an unknown desired type, by (name, NM
type) otherwise, plus the MAC-identified extensions (profiles whose id
equals the configured profile name, and profiles whose wired MAC matches
case-insensitively). -/
def matchedConns (allConns : List NmConnection) (mi : MergedIface) :
    List NmConnection :=
  let base : List NmConnection :=
    if mi.merged.iface_type = InterfaceType.Unknown then
      allConns.filter fun c => decide (c.iface_name = some mi.merged.name)
    else
      connsByNameType allConns mi.merged.name
        (ifaceTypeToNm mi.merged.iface_type)
  let macByProfileName : List NmConnection :=
    match mi.current with
    | some cur =>
      if cur.identifier = some InterfaceIdentifier.MacAddress
          ∧ cur.profile_name = some mi.merged.name then
        allConns.filter fun c => decide (c.id = some mi.merged.name)
      else []
    | none => []
  let macByMac : List NmConnection :=
    match mi.current with
    | some cur =>
      if cur.identifier = some InterfaceIdentifier.MacAddress
          ∧ cur.name = mi.merged.name then
        match cur.mac_address with
        | some mac =>
          allConns.filter fun c =>
            decide (c.wired_mac.map String.toUpper = some mac.toUpper)
        | none => []
      else []
    | none => []
  base ++ macByProfileName ++ macByMac

/-- The body of the per-profile deletion loop: insert the profile's own
uuid; when its controller type is OvsPort, also insert the controller —
directly when it is a uuid reference, else every (controller-name,
OvsPort) indexed profile. -/
def connDeleteStep (allConns : List NmConnection) (acc : List String)
    (c : NmConnection) : List String :=
  let acc1 := insertUuid acc c.uuid
  if c.controller_type = some NmIfaceType.OvsPort then
    match c.controller with
    | some ctrl =>
      if is_uuid ctrl then hsInsert acc1 ctrl
      else
        insertConnUuids acc1
          (connsByNameType allConns ctrl NmIfaceType.OvsPort)
    | none => acc1
  else acc1

/-- The per-interface body of `delete_ifaces`: IPsec interfaces collect
their VPN profiles by name; all other interfaces run the per-profile
deletion loop over their matched profiles. -/
def ifaceDeleteStep (allConns : List NmConnection) (acc : List String)
    (mi : MergedIface) : List String :=
  if mi.merged.iface_type = InterfaceType.Ipsec then
    insertConnUuids acc (getMatchIpsecNmConn mi.merged.name allConns)
  else
    (matchedConns allConns mi).foldl (connDeleteStep allConns) acc

/-- The delete set computed by `delete_ifaces`: collect over every
merged interface that is changed and absent. -/
def deleteIfacesUuids (ms : List MergedIface)
    (allConns : List NmConnection) : List String :=
  (ms.filter fun i => i.is_changed && i.merged.is_absent).foldl
    (ifaceDeleteStep allConns) []

/-- Modelled from the spec: the profiles still present after the backend
executed `delete(profile_id)` for every id in the delete set. -/
def remainingConns (all : List NmConnection) (deleted : List String) :
    List NmConnection :=
  all.filter fun c =>
    match c.uuid with
    | some u => decide (u ∉ deleted)
    | none => true

/-- Vec push of a profile's uuid, when present (`delete_orphan_ports`
collects into a plain Vec). -/
def pushUuid (acc : List String) : Option String → List String
  | some u => acc ++ [u]
  | none => acc

/-- The loop body of `delete_orphan_ports`: an OvsPort-type profile
whose controller uuid was just deleted is collected for deletion. -/
def orphanPortStep (deleted : List String) (acc : List String)
    (c : NmConnection) : List String :=
  if c.iface_type = some NmIfaceType.OvsPort then
    match c.controller with
    | some ctrl => if ctrl ∈ deleted then pushUuid acc c.uuid else acc
    | none => acc
  else acc

/-- `delete_orphan_ports`: among the remaining profiles, delete every
OvsPort-type profile whose controller uuid was just deleted. -/
def deleteOrphanPortsUuids (remaining : List NmConnection)
    (deleted : List String) : List String :=
  remaining.foldl (orphanPortStep deleted) []

/-! ## Route-rule action byte conversions
(rust/src/lib/nm/nm_dbus/connection/route_rule.rs) -/

def RTN_BLACKHOLE : Nat := 6

def RTN_UNREACHABLE : Nat := 7

def RTN_PROHIBIT : Nat := 8

/-- `NmIpRouteRuleAction`: policy-rule action, with unrecognized byte
codes kept in `Other`. -/
inductive NmIpRouteRuleAction where
  | Blackhole
  | Unreachable
  | Prohibit
  | Other (code : Nat)
  deriving DecidableEq, Repr

/-- `impl From<u8> for NmIpRouteRuleAction`: bytes 6, 7, 8 map to the
named actions, everything else to `Other`. -/
def NmIpRouteRuleAction.fromU8 (v : Nat) : NmIpRouteRuleAction :=
  if v = RTN_BLACKHOLE then NmIpRouteRuleAction.Blackhole
  else if v = RTN_UNREACHABLE then NmIpRouteRuleAction.Unreachable
  else if v = RTN_PROHIBIT then NmIpRouteRuleAction.Prohibit
  else NmIpRouteRuleAction.Other v

/-- `impl From<NmIpRouteRuleAction> for u8`. -/
def NmIpRouteRuleAction.toU8 : NmIpRouteRuleAction → Nat
  | NmIpRouteRuleAction.Blackhole => RTN_BLACKHOLE
  | NmIpRouteRuleAction.Unreachable => RTN_UNREACHABLE
  | NmIpRouteRuleAction.Prohibit => RTN_PROHIBIT
  | NmIpRouteRuleAction.Other d => d
/-! ## Concrete values used by witnesses and counterexamples -/

def eth0W : String := "eth0"

def eth1W : String := "eth1"

def viaW : String := "192.168.1.1"

def via2W : String := "192.168.2.1"

def dstW : String := "10.0.0.0/24"

def ipAddrW : String := "192.0.2.1/24"

def ovs0W : String := "ovs0"

def ovs0PortW : String := "ovs0-port"

def uuid1W : String := "11111111-1111-1111-1111-111111111111"

def uuid2W : String := "22222222-2222-2222-2222-222222222222"

def uuid3W : String := "33333333-3333-3333-3333-333333333333"

/-- An all-unset base interface, used as a builder for concrete cases. -/
def baseZero : BaseInterface :=
  { name := ""
    description := none
    iface_type := InterfaceType.Unknown
    state := InterfaceState.Up
    mtu := none
    min_mtu := none
    max_mtu := none
    mac_address := none
    permanent_mac_address := none
    controller := none
    controller_type := none
    accept_all_mac_addresses := none
    ovsdb := none
    ieee8021x := none
    lldp := none
    ethtool := none
    mptcp := none
    wait_ip := none
    ipv4 := none
    ipv6 := none
    prop_list := [] }

/-- A concrete nested IP block with every field touched. -/
def ipBlockA : InterfaceIp :=
  { enabled := some true
    dhcp := some false
    addresses := some [ipAddrW]
    prop_list := [ipEnabled, ipDhcp, ipAddresses] }

/-- A concrete nested IP block touching only `enabled`. -/
def ipBlockB : InterfaceIp :=
  { enabled := some false
    dhcp := some true
    addresses := none
    prop_list := [ipEnabled] }

def bC1s : BaseInterface :=
  { baseZero with name := eth0W, prop_list := [pName, pMtu] }

def bC1o : BaseInterface :=
  { baseZero with mtu := some 1500, prop_list := [pMtu, pState] }

def bC2s : BaseInterface := { baseZero with ipv6 := some ipBlockA }

def bC2o : BaseInterface :=
  { baseZero with ipv6 := none, prop_list := [pIpv6] }

def bC2ws : BaseInterface := { baseZero with ipv4 := some ipBlockB }

def bC2wo : BaseInterface :=
  { baseZero with ipv4 := some ipBlockA, prop_list := [pIpv4] }

def bC7s : BaseInterface := { baseZero with ipv4 := some ipBlockA }

def bC7o : BaseInterface :=
  { baseZero with ipv4 := none, prop_list := [pIpv4] }

def bC7wo : BaseInterface :=
  { baseZero with
    name := eth1W
    mtu := some 9000
    prop_list := [pName, pMtu] }

/-- A neutral kernel-route value, used as a builder for concrete cases. -/
def npZero : NpRoute :=
  { address_family := AddressFamily.IPv4
    dst := none
    oif := none
    via := none
    gateway := none
    prefered_src := none
    metric := none
    table := 254
    lock := none
    cwnd := none
    route_type := NpRouteType.Unicast
    scope := RouteScope.Universe
    protocol := RouteProtocol.Static
    multipath := none }

/-- A kernel route with an unrecognized address family, no destination,
and an outgoing interface. -/
def rC3 : NpRoute :=
  { npZero with address_family := AddressFamily.Other 0, oif := some eth0W }

/-- An IPv4 kernel route with no destination and an outgoing
interface. -/
def rW3 : NpRoute := { npZero with oif := some eth0W }

def hop1W : MultipathRoute := { via := viaW, iface := eth0W, weight := 1 }

def hop2W : MultipathRoute := { via := via2W, iface := eth1W, weight := 2 }

/-- A concrete IPv4 multipath route with two next hops. -/
def rW5 : NpRoute :=
  { npZero with
    dst := some dstW
    metric := some 100
    multipath := some [hop1W, hop2W] }

/-- A kernel route reporting cwnd 10 with the lock bit 7 set. -/
def rW9 : NpRoute :=
  { npZero with oif := some eth0W, lock := some 128, cwnd := some 10 }

/-- A desired route with table id 300 (out of the u8 apply range). -/
def reW4 : RouteEntry := { RouteEntry.new with table_id := some 300 }

/-- A merged OVS interface that is changed and absent. -/
def miW : MergedIface :=
  { is_changed := true
    merged :=
      { name := ovs0W
        iface_type := InterfaceType.OvsInterface
        state := InterfaceState.Absent }
    current := none }

/-- The OVS internal-interface profile, controlled by an OVS port
profile referenced by uuid. -/
def connW1 : NmConnection :=
  { uuid := some uuid1W
    id := none
    iface_name := some ovs0W
    iface_type := some NmIfaceType.OvsIface
    controller := some uuid2W
    controller_type := some NmIfaceType.OvsPort
    wired_mac := none }

/-- The OVS port profile. -/
def connW2 : NmConnection :=
  { uuid := some uuid2W
    id := none
    iface_name := some ovs0PortW
    iface_type := some NmIfaceType.OvsPort
    controller := some uuid3W
    controller_type := some NmIfaceType.OvsBridge
    wired_mac := none }

def connsW : List NmConnection := [connW1, connW2]

/-! ## Helper lemmas -/


theorem mem_hsInsert {a : List String} {x y : String} :
    y ∈ hsInsert a x ↔ y ∈ a ∨ y = x := by
  unfold hsInsert
  split
  · constructor
    · exact fun h => Or.inl h
    · rintro (h | rfl) <;> assumption
  · simp [List.mem_append]

theorem hsInsert_nodup {a : List String} {x : String} (h : a.Nodup) :
    (hsInsert a x).Nodup := by
  unfold hsInsert
  split
  · exact h
  · next hx => simpa [List.nodup_append] using ⟨h, hx⟩

theorem mem_unionProps {a b : List String} {y : String} :
    y ∈ unionProps a b ↔ y ∈ a ∨ y ∈ b := by
  induction b generalizing a with
  | nil => simp [unionProps]
  | cons x b ih =>
    show y ∈ unionProps (hsInsert a x) b ↔ _
    rw [ih, mem_hsInsert]
    simp only [List.mem_cons]
    tauto

theorem unionProps_nodup {a b : List String} (h : a.Nodup) :
    (unionProps a b).Nodup := by
  induction b generalizing a with
  | nil => exact h
  | cons x b ih => exact ih (hsInsert_nodup h)

theorem unionProps_absorb {a b : List String} (h : ∀ x ∈ b, x ∈ a) :
    unionProps a b = a := by
  induction b generalizing a with
  | nil => rfl
  | cons x b ih =>
    show unionProps (hsInsert a x) b = a
    have hx : x ∈ a := h x (by simp)
    have : hsInsert a x = a := by simp [hsInsert, hx]
    rw [this]
    exact ih fun z hz => h z (by simp [hz])

theorem copyIf_idem (c : Prop) [Decidable c] (s o : α) :
    copyIf c (copyIf c s o) o = copyIf c s o := by
  unfold copyIf
  split <;> rfl

theorem unionProps_self_absorb (a b : List String) :
    unionProps (unionProps a b) b = unionProps a b :=
  unionProps_absorb fun x hx => mem_unionProps.mpr (Or.inr hx)

theorem InterfaceIp.update_self (o : InterfaceIp) : o.update o = o := by
  have h : unionProps o.prop_list o.prop_list = o.prop_list :=
    unionProps_absorb fun x hx => hx
  simp [InterfaceIp.update, copyIf, ite_self, h]

theorem InterfaceIp.update_idem (s o : InterfaceIp) :
    (s.update o).update o = s.update o := by
  simp [InterfaceIp.update, copyIf_idem, unionProps_self_absorb]

theorem updateIpOpt_idem (c : Prop) [Decidable c]
    (s o : Option InterfaceIp) :
    updateIpOpt c (updateIpOpt c s o) o = updateIpOpt c s o := by
  by_cases hc : c
  · cases o with
    | none => simp [updateIpOpt, hc]
    | some oip =>
      cases s with
      | none => simp [updateIpOpt, hc, InterfaceIp.update_self]
      | some sip => simp [updateIpOpt, hc, InterfaceIp.update_idem]
  · simp [updateIpOpt, hc]

/-! ## Claim theorems: BaseInterface overlay -/

theorem copyIf_of_pos {c : Prop} [Decidable c] (a b : α) (h : c) :
    copyIf c a b = b := by
  simp [copyIf, h]

/-- C1: after `BaseInterface::update`, the touched-property set is the
union of both sides' touched sets, and (given the representation
invariant that self's list is duplicate-free) no attribute name appears
twice. -/
theorem base_update_prop_list_is_union (s o : BaseInterface)
    (h : s.prop_list.Nodup) :
    (s.update o).prop_list.Nodup
    ∧ ∀ p, p ∈ (s.update o).prop_list ↔ p ∈ s.prop_list ∨ p ∈ o.prop_list :=
  ⟨unionProps_nodup h, fun _ => mem_unionProps⟩

/-- Witness for C1 at a concrete pair of interfaces. -/
theorem base_update_prop_list_is_union_witness :
    bC1s.prop_list.Nodup
    ∧ ((bC1s.update bC1o).prop_list.Nodup
      ∧ ∀ p, p ∈ (bC1s.update bC1o).prop_list
        ↔ p ∈ bC1s.prop_list ∨ p ∈ bC1o.prop_list) :=
  ⟨by decide, base_update_prop_list_is_union bC1s bC1o (by decide)⟩

/-- C8: overlaying twice with the same argument equals overlaying once
(the touched set is unioned, not concatenated). -/
theorem base_update_idempotent (s o : BaseInterface) :
    (s.update o).update o = s.update o := by
  simp [BaseInterface.update, copyIf_idem, updateIpOpt_idem,
    unionProps_self_absorb]

/-- Counterexample to C2 as stated: a touched but absent other-side IPv6
block does not clear self's block — the merged interface keeps it. -/
theorem base_update_absent_ip_block_kept_cex :
    pIpv6 ∈ bC2o.prop_list ∧ bC2o.ipv6 = none
    ∧ (bC2s.update bC2o).ipv6 = some ipBlockA
    ∧ (bC2s.update bC2o).ipv6 ≠ none := by decide

/-- C2 (amended): for a touched IP block, both sides present recurse
into the block overlay; an absent self-side block is replaced by the
other side's; an absent other-side block leaves self's block
unchanged. -/
theorem base_update_ip_block_merge (s o : BaseInterface) :
    (pIpv4 ∈ o.prop_list →
      (∀ sip oip, s.ipv4 = some sip → o.ipv4 = some oip →
        (s.update o).ipv4 = some (sip.update oip))
      ∧ (s.ipv4 = none → (s.update o).ipv4 = o.ipv4)
      ∧ (o.ipv4 = none → (s.update o).ipv4 = s.ipv4))
    ∧ (pIpv4 ∉ o.prop_list → (s.update o).ipv4 = s.ipv4)
    ∧ (pIpv6 ∈ o.prop_list →
      (∀ sip oip, s.ipv6 = some sip → o.ipv6 = some oip →
        (s.update o).ipv6 = some (sip.update oip))
      ∧ (s.ipv6 = none → (s.update o).ipv6 = o.ipv6)
      ∧ (o.ipv6 = none → (s.update o).ipv6 = s.ipv6))
    ∧ (pIpv6 ∉ o.prop_list → (s.update o).ipv6 = s.ipv6) := by
  refine ⟨fun h => ⟨?_, ?_, ?_⟩, fun h => ?_,
    fun h => ⟨?_, ?_, ?_⟩, fun h => ?_⟩
  · intro sip oip hs ho
    show updateIpOpt _ s.ipv4 o.ipv4 = _
    rw [hs, ho]
    simp [updateIpOpt, h]
  · intro hs
    show updateIpOpt _ s.ipv4 o.ipv4 = _
    rw [hs]
    cases ho : o.ipv4 <;> simp [updateIpOpt, h]
  · intro ho
    show updateIpOpt _ s.ipv4 o.ipv4 = _
    rw [ho]
    simp [updateIpOpt, h]
  · show updateIpOpt _ s.ipv4 o.ipv4 = _
    simp [updateIpOpt, h]
  · intro sip oip hs ho
    show updateIpOpt _ s.ipv6 o.ipv6 = _
    rw [hs, ho]
    simp [updateIpOpt, h]
  · intro hs
    show updateIpOpt _ s.ipv6 o.ipv6 = _
    rw [hs]
    cases ho : o.ipv6 <;> simp [updateIpOpt, h]
  · intro ho
    show updateIpOpt _ s.ipv6 o.ipv6 = _
    rw [ho]
    simp [updateIpOpt, h]
  · show updateIpOpt _ s.ipv6 o.ipv6 = _
    simp [updateIpOpt, h]

/-- Witness for C2 (amended) at a concrete pair with both blocks
present. -/
theorem base_update_ip_block_merge_witness :
    pIpv4 ∈ bC2wo.prop_list
    ∧ (bC2ws.update bC2wo).ipv4 = some (ipBlockB.update ipBlockA) :=
  ⟨by decide,
    ((base_update_ip_block_merge bC2ws bC2wo).1 (by decide)).1
      ipBlockB ipBlockA rfl rfl⟩

/-- Counterexample to C7 as stated: the touched `ipv4` attribute is not
copied unconditionally — an absent other-side block is not copied over a
present self-side block. -/
theorem base_update_touched_ip_not_copied_cex :
    pIpv4 ∈ bC7o.prop_list ∧ bC7o.ipv4 = none
    ∧ (bC7s.update bC7o).ipv4 = some ipBlockA
    ∧ (bC7s.update bC7o).ipv4 ≠ bC7o.ipv4 := by decide

/-- C7 (amended): a touched interface type of Unknown never overwrites
self's type, a touched non-Unknown type does; every other touched
attribute except the ipv4/ipv6 blocks is copied unconditionally (the
blocks follow the block-merge rule). -/
theorem base_update_touched_attr_copy (s o : BaseInterface) :
    (pIfaceType ∈ o.prop_list →
      (o.iface_type = InterfaceType.Unknown →
        (s.update o).iface_type = s.iface_type)
      ∧ (o.iface_type ≠ InterfaceType.Unknown →
        (s.update o).iface_type = o.iface_type))
    ∧ (pName ∈ o.prop_list → (s.update o).name = o.name)
    ∧ (pDescription ∈ o.prop_list → (s.update o).description = o.description)
    ∧ (pState ∈ o.prop_list → (s.update o).state = o.state)
    ∧ (pMtu ∈ o.prop_list → (s.update o).mtu = o.mtu)
    ∧ (pMinMtu ∈ o.prop_list → (s.update o).min_mtu = o.min_mtu)
    ∧ (pMaxMtu ∈ o.prop_list → (s.update o).max_mtu = o.max_mtu)
    ∧ (pMacAddress ∈ o.prop_list → (s.update o).mac_address = o.mac_address)
    ∧ (pPermanentMacAddress ∈ o.prop_list →
        (s.update o).permanent_mac_address = o.permanent_mac_address)
    ∧ (pController ∈ o.prop_list → (s.update o).controller = o.controller)
    ∧ (pControllerType ∈ o.prop_list →
        (s.update o).controller_type = o.controller_type)
    ∧ (pAcceptAllMacAddresses ∈ o.prop_list →
        (s.update o).accept_all_mac_addresses = o.accept_all_mac_addresses)
    ∧ (pOvsdb ∈ o.prop_list → (s.update o).ovsdb = o.ovsdb)
    ∧ (pIeee8021x ∈ o.prop_list → (s.update o).ieee8021x = o.ieee8021x)
    ∧ (pLldp ∈ o.prop_list → (s.update o).lldp = o.lldp)
    ∧ (pEthtool ∈ o.prop_list → (s.update o).ethtool = o.ethtool)
    ∧ (pMptcp ∈ o.prop_list → (s.update o).mptcp = o.mptcp)
    ∧ (pWaitIp ∈ o.prop_list → (s.update o).wait_ip = o.wait_ip) := by
  refine ⟨fun h => ⟨fun hU => ?_, fun hU => ?_⟩,
    fun h => copyIf_of_pos _ _ h, fun h => copyIf_of_pos _ _ h,
    fun h => copyIf_of_pos _ _ h, fun h => copyIf_of_pos _ _ h,
    fun h => copyIf_of_pos _ _ h, fun h => copyIf_of_pos _ _ h,
    fun h => copyIf_of_pos _ _ h, fun h => copyIf_of_pos _ _ h,
    fun h => copyIf_of_pos _ _ h, fun h => copyIf_of_pos _ _ h,
    fun h => copyIf_of_pos _ _ h, fun h => copyIf_of_pos _ _ h,
    fun h => copyIf_of_pos _ _ h, fun h => copyIf_of_pos _ _ h,
    fun h => copyIf_of_pos _ _ h, fun h => copyIf_of_pos _ _ h,
    fun h => copyIf_of_pos _ _ h⟩
  · show copyIf _ s.iface_type o.iface_type = s.iface_type
    unfold copyIf
    rw [if_neg]
    rintro ⟨_, hne⟩
    exact hne hU
  · exact copyIf_of_pos _ _ ⟨h, hU⟩

/-- Witness for C7 (amended) at a concrete pair. -/
theorem base_update_touched_attr_copy_witness :
    pName ∈ bC7wo.prop_list ∧ (baseZero.update bC7wo).name = bC7wo.name :=
  ⟨by decide, (base_update_touched_attr_copy baseZero bC7wo).2.1 (by decide)⟩

/-! ## Claim theorems: route normalization and outbound translation -/

/-- Counterexample to C3 as stated: a kernel route with an unrecognized
address family and no destination is not dropped — it still yields one
normalized entry (with an unset destination). -/
theorem route_unknown_family_not_dropped_cex :
    rC3.dst = none ∧ rC3.address_family = AddressFamily.Other 0
    ∧ collectRoutes [rC3] = [npRouteToNmstate rC3]
    ∧ collectRoutes [rC3] ≠ []
    ∧ (npRouteToNmstate rC3).destination = none := by decide

/-- C3 (amended): a destination-less kernel route normalizes to
0.0.0.0/0 for IPv4 and ::/0 for IPv6; for an unrecognized family the
destination is left unset with a warning, but the route entry is still
produced (nothing errors the batch). -/
theorem route_default_destination_synthesis (r : NpRoute)
    (hdst : r.dst = none) :
    (r.address_family = AddressFamily.IPv4 →
      (npRouteToNmstate r).destination = some IPV4_DEFAULT_GATEWAY
      ∧ (npRoutetypeToNmstate r).destination = some IPV4_DEFAULT_GATEWAY)
    ∧ (r.address_family = AddressFamily.IPv6 →
      (npRouteToNmstate r).destination = some IPV6_DEFAULT_GATEWAY
      ∧ (npRoutetypeToNmstate r).destination = some IPV6_DEFAULT_GATEWAY)
    ∧ (∀ n, r.address_family = AddressFamily.Other n →
      (npRouteToNmstate r).destination = none
      ∧ (npRoutetypeToNmstate r).destination = none
      ∧ (isMultipath r = false → r.route_type ∉ routeTypeFilter →
        r.oif.isSome = true → collectRoutes [r] = [npRouteToNmstate r])) := by
  refine ⟨fun h4 => ?_, fun h6 => ?_, fun n hn => ⟨?_, ?_, ?_⟩⟩
  · constructor <;> simp [npRouteToNmstate, npRoutetypeToNmstate, hdst, h4]
  · constructor <;> simp [npRouteToNmstate, npRoutetypeToNmstate, hdst, h6]
  · simp [npRouteToNmstate, hdst, hn]
  · simp [npRoutetypeToNmstate, hdst, hn]
  · intro hmp hft hoif
    simp [collectRoutes, hmp, hft, hoif]

/-- Witness for C3 (amended) at a concrete destination-less IPv4
route. -/
theorem route_default_destination_synthesis_witness :
    rW3.dst = none ∧ rW3.address_family = AddressFamily.IPv4
    ∧ (npRouteToNmstate rW3).destination = some IPV4_DEFAULT_GATEWAY
    ∧ (npRoutetypeToNmstate rW3).destination = some IPV4_DEFAULT_GATEWAY :=
  ⟨rfl, rfl,
    ((route_default_destination_synthesis rW3 rfl).1 rfl).1,
    ((route_default_destination_synthesis rW3 rfl).1 rfl).2⟩

theorem tableCheck_error_kind (r : RouteEntry) (e : NmstateError)
    (h : tableCheck r = Except.error e) :
    e.kind = ErrorKind.NotImplementedError := by
  unfold tableCheck at h
  split at h
  · split_ifs at h
    injection h with h2
    subst h2
    rfl
  · simp at h

theorem tableCheck_ok_bound (r : RouteEntry) (t : Option Nat)
    (h : tableCheck r = Except.ok t) :
    ∀ tid, r.table_id = some tid → tid ≤ 255 := by
  intro tid htid
  unfold tableCheck at h
  rw [htid] at h
  dsimp only at h
  split_ifs at h with hgt
  omega

theorem nmstateToNisporRouteConf_error_kind (r : RouteEntry)
    (e : NmstateError) (h : nmstateToNisporRouteConf r = Except.error e) :
    e.kind = ErrorKind.NotImplementedError := by
  unfold nmstateToNisporRouteConf at h
  split at h
  · next e2 heq =>
      injection h with h2
      subst h2
      exact tableCheck_error_kind r e2 heq
  · split_ifs at h <;> first
      | (injection h with h2; subst h2; rfl)
      | simp at h

theorem nmstateToNisporRouteConf_ok_inv (r : RouteEntry)
    (c : NisporRouteConf) (h : nmstateToNisporRouteConf r = Except.ok c) :
    (∀ tid, r.table_id = some tid → tid ≤ 255)
    ∧ r.weight.isSome = false ∧ r.route_type.isSome = false
    ∧ r.cwnd.isSome = false := by
  unfold nmstateToNisporRouteConf at h
  split at h
  · simp at h
  · next t heq =>
      split_ifs at h with hw ht hc
      exact ⟨tableCheck_ok_bound r t heq, by simpa using hw,
        by simpa using ht, by simpa using hc⟩

/-- C4: the outbound translation rejects, with a NotImplementedError,
any desired route with a table id above 255, a multipath weight, an
explicit non-unicast route kind, or a congestion window; the error
aborts the whole translation of the changed-route list. -/
theorem nispor_apply_rejects_unsupported (r : RouteEntry)
    (h : (∃ t, r.table_id = some t ∧ 255 < t) ∨ r.weight.isSome = true
      ∨ (∃ k, r.route_type = some k ∧ k ≠ RouteType.Unicast)
      ∨ r.cwnd.isSome = true) :
    (∃ e, nmstateToNisporRouteConf r = Except.error e
      ∧ e.kind = ErrorKind.NotImplementedError)
    ∧ ∀ rs, r ∈ rs →
      ∃ e, genNisporRouteConfs rs = Except.error e
        ∧ e.kind = ErrorKind.NotImplementedError := by
  have herr : ∃ e, nmstateToNisporRouteConf r = Except.error e
      ∧ e.kind = ErrorKind.NotImplementedError := by
    rcases hconv : nmstateToNisporRouteConf r with e | c
    · exact ⟨e, rfl, nmstateToNisporRouteConf_error_kind r e hconv⟩
    · exfalso
      obtain ⟨hbound, hw, ht, hc⟩ := nmstateToNisporRouteConf_ok_inv r c hconv
      rcases h with ⟨t, hts, htb⟩ | hw2 | ⟨k, hks, _⟩ | hc2
      · exact absurd (hbound t hts) (by omega)
      · rw [hw] at hw2
        cases hw2
      · rw [hks] at ht
        simp at ht
      · rw [hc] at hc2
        cases hc2
  refine ⟨herr, ?_⟩
  intro rs hmem
  induction rs with
  | nil => cases hmem
  | cons a rest ih =>
    rcases hconv : nmstateToNisporRouteConf a with e | c
    · exact ⟨e, by simp [genNisporRouteConfs, hconv],
        nmstateToNisporRouteConf_error_kind a e hconv⟩
    · rcases List.mem_cons.mp hmem with rfl | hmem2
      · obtain ⟨e, he, _⟩ := herr
        rw [hconv] at he
        cases he
      · obtain ⟨e, he, hk⟩ := ih hmem2
        exact ⟨e, by simp [genNisporRouteConfs, hconv, he], hk⟩

/-- Witness for C4: table id 300 yields the error (never a clamped
conf), and aborts the batch translation. -/
theorem nispor_apply_rejects_unsupported_witness :
    reW4.table_id = some 300
    ∧ ((∃ e, nmstateToNisporRouteConf reW4 = Except.error e
        ∧ e.kind = ErrorKind.NotImplementedError)
      ∧ ∀ rs, reW4 ∈ rs →
        ∃ e, genNisporRouteConfs rs = Except.error e
          ∧ e.kind = ErrorKind.NotImplementedError) :=
  ⟨rfl, nispor_apply_rejects_unsupported reW4 (Or.inl ⟨300, rfl, by decide⟩)⟩

/-- C9: the congestion window survives normalization exactly when the
kernel lock bitfield has bit 7 (mask 0x80) set; an unset bit or an
absent lock field yields an unset cwnd. -/
theorem route_cwnd_lock_gating (r : NpRoute) :
    (Nat.land (r.lock.getD 0) 128 ≠ 0 →
      (npRouteToNmstate r).cwnd = r.cwnd
      ∧ (npRoutetypeToNmstate r).cwnd = r.cwnd)
    ∧ (Nat.land (r.lock.getD 0) 128 = 0 →
      (npRouteToNmstate r).cwnd = none
      ∧ (npRoutetypeToNmstate r).cwnd = none)
    ∧ (r.lock = none →
      (npRouteToNmstate r).cwnd = none
      ∧ (npRoutetypeToNmstate r).cwnd = none)
    ∧ ∀ v, ((npRouteToNmstate r).cwnd = some v
      ↔ r.cwnd = some v ∧ Nat.land (r.lock.getD 0) 128 ≠ 0) := by
  have h128 : (1 : Nat) <<< RTAX_CWND = 128 := by decide
  refine ⟨fun h => ?_, fun h => ?_, fun h => ?_, fun v => ?_⟩
  · constructor <;> simp [npRouteToNmstate, npRoutetypeToNmstate, h128, h]
  · constructor <;> simp [npRouteToNmstate, npRoutetypeToNmstate, h128, h]
  · have hland : Nat.land (r.lock.getD 0) 128 = 0 := by
      rw [h]
      decide
    constructor <;>
      simp [npRouteToNmstate, npRoutetypeToNmstate, h128, hland]
  · by_cases h : Nat.land (r.lock.getD 0) 128 = 0
    · simp [npRouteToNmstate, h128, h]
    · simp [npRouteToNmstate, h128, h]

/-- Witness for C9 at a concrete route with cwnd 10 and lock bit 7
set. -/
theorem route_cwnd_lock_gating_witness :
    Nat.land (rW9.lock.getD 0) 128 ≠ 0
    ∧ (npRouteToNmstate rW9).cwnd = rW9.cwnd
    ∧ rW9.cwnd = some 10 :=
  ⟨by decide, ((route_cwnd_lock_gating rW9).1 (by decide)).1, rfl⟩

/-- C10: the byte → rule-action → byte round trip is the identity on
every byte: 6/7/8 name the three special actions, everything else is
preserved through `Other`. -/
theorem rule_action_u8_round_trip (b : Nat) (h : b < 256) :
    NmIpRouteRuleAction.toU8 (NmIpRouteRuleAction.fromU8 b) = b
    ∧ NmIpRouteRuleAction.fromU8 RTN_BLACKHOLE = NmIpRouteRuleAction.Blackhole
    ∧ NmIpRouteRuleAction.fromU8 RTN_UNREACHABLE
      = NmIpRouteRuleAction.Unreachable
    ∧ NmIpRouteRuleAction.fromU8 RTN_PROHIBIT = NmIpRouteRuleAction.Prohibit
    ∧ (b ≠ RTN_BLACKHOLE → b ≠ RTN_UNREACHABLE → b ≠ RTN_PROHIBIT →
      NmIpRouteRuleAction.fromU8 b = NmIpRouteRuleAction.Other b) := by
  refine ⟨?_, by decide, by decide, by decide, fun h6 h7 h8 => ?_⟩
  · unfold NmIpRouteRuleAction.fromU8
    split_ifs with h1 h2 h3
    · simp [NmIpRouteRuleAction.toU8, RTN_BLACKHOLE, h1]
    · simp [NmIpRouteRuleAction.toU8, RTN_UNREACHABLE, h2]
    · simp [NmIpRouteRuleAction.toU8, RTN_PROHIBIT, h3]
    · rfl
  · simp [NmIpRouteRuleAction.fromU8, h6, h7, h8]

/-- Witness for C10 at byte 9 (an `Other` code). -/
theorem rule_action_u8_round_trip_witness :
    9 < 256 ∧ NmIpRouteRuleAction.toU8 (NmIpRouteRuleAction.fromU8 9) = 9 :=
  ⟨by decide, (rule_action_u8_round_trip 9 (by decide)).1⟩

theorem map_congr_mem {α β : Type} {f g : α → β} :
    ∀ l : List α, (∀ a ∈ l, f a = g a) → l.map f = l.map g := by
  intro l
  induction l with
  | nil => intro _; rfl
  | cons a t ih =>
    intro hfg
    simp only [List.map_cons]
    rw [hfg a (by simp), ih fun b hb => hfg b (by simp [hb])]

/-- C5: flattening a route with N multipath hops yields exactly N flat
entries sharing the source's normalized destination, table and metric,
each overriding next-hop iface/address from its own hop and carrying the
hop weight only for IPv4; the (iface, address) hop pairs are preserved
(also as an unordered set). -/
theorem flat_multipath_route_spec (r : NpRoute) (hops : List MultipathRoute)
    (hmp : r.multipath = some hops) (hne : hops ≠ []) :
    (flatMultipathRoute r).length = hops.length
    ∧ (∀ e ∈ flatMultipathRoute r,
        e.destination = (npRouteToNmstate r).destination
        ∧ e.table_id = some r.table
        ∧ e.metric = r.metric.map (fun m => (m : Int)))
    ∧ (flatMultipathRoute r).map
        (fun e => (e.next_hop_iface, e.next_hop_addr, e.weight))
      = hops.map (fun h => (some h.iface, some h.via,
          if r.address_family = AddressFamily.IPv4 then some h.weight
          else none))
    ∧ ((flatMultipathRoute r).map
        (fun e => (e.next_hop_iface, e.next_hop_addr))).toFinset
      = (hops.map (fun h =>
          ((some h.iface : Option String), some h.via))).toFinset := by
  have hfl : flatMultipathRoute r = hops.map fun h =>
      let nr := { r with via := some h.via, oif := some h.iface }
      let e := npRouteToNmstate nr
      if r.address_family = AddressFamily.IPv4 then
        { e with weight := some h.weight }
      else e := by
    simp [flatMultipathRoute, hmp]
  refine ⟨?_, ?_, ?_, ?_⟩
  · rw [hfl, List.length_map]
  · rw [hfl]
    intro e he
    obtain ⟨h, hh, rfl⟩ := List.mem_map.mp he
    by_cases hf : r.address_family = AddressFamily.IPv4 <;>
      simp [npRouteToNmstate, hf]
  · rw [hfl, List.map_map]
    apply map_congr_mem
    intro h hh
    by_cases hf : r.address_family = AddressFamily.IPv4 <;>
      simp [npRouteToNmstate, RouteEntry.new, hf]
  · rw [hfl, List.map_map]
    refine congrArg List.toFinset ?_
    apply map_congr_mem
    intro h hh
    by_cases hf : r.address_family = AddressFamily.IPv4 <;>
      simp [npRouteToNmstate, RouteEntry.new, hf]

/-- Witness for C5 at a concrete two-hop IPv4 multipath route. -/
theorem flat_multipath_route_spec_witness :
    rW5.multipath = some [hop1W, hop2W]
    ∧ (flatMultipathRoute rW5).length = [hop1W, hop2W].length :=
  ⟨rfl, (flat_multipath_route_spec rW5 [hop1W, hop2W] rfl (by decide)).1⟩

/-! ## Helper lemmas for the deletion pass -/

theorem mem_hsInsert_self (a : List String) (x : String) : x ∈ hsInsert a x :=
  mem_hsInsert.mpr (Or.inr rfl)

theorem mem_hsInsert_of_mem {a : List String} {y : String} (x : String)
    (h : y ∈ a) : y ∈ hsInsert a x :=
  mem_hsInsert.mpr (Or.inl h)

theorem foldl_mem_mono {α : Type} {y : String}
    {step : List String → α → List String}
    (hstep : ∀ a x, y ∈ a → y ∈ step a x) :
    ∀ (l : List α) (acc : List String), y ∈ acc → y ∈ l.foldl step acc := by
  intro l
  induction l with
  | nil => exact fun acc h => h
  | cons a t ih => exact fun acc h => ih _ (hstep _ _ h)

theorem foldl_mem_of_elem {α : Type} {y : String} {c : α}
    {step : List String → α → List String}
    (hstep : ∀ a x, y ∈ a → y ∈ step a x)
    (helem : ∀ acc, y ∈ step acc c) :
    ∀ (l : List α), c ∈ l → ∀ acc, y ∈ l.foldl step acc := by
  intro l
  induction l with
  | nil => intro h; cases h
  | cons a t ih =>
    intro hc acc
    rcases List.mem_cons.mp hc with rfl | hmem
    · exact foldl_mem_mono hstep t _ (helem acc)
    · exact ih hmem _

theorem foldl_nodup_pres {α : Type} {step : List String → α → List String}
    (hstep : ∀ a x, a.Nodup → (step a x).Nodup) :
    ∀ (l : List α) (acc : List String), acc.Nodup →
      (l.foldl step acc).Nodup := by
  intro l
  induction l with
  | nil => exact fun acc h => h
  | cons a t ih => exact fun acc h => ih _ (hstep _ _ h)

theorem insertUuid_mono {acc : List String} {y : String} (u : Option String)
    (h : y ∈ acc) : y ∈ insertUuid acc u := by
  cases u with
  | none => exact h
  | some u => exact mem_hsInsert_of_mem u h

theorem insertUuid_nodup {acc : List String} (u : Option String)
    (h : acc.Nodup) : (insertUuid acc u).Nodup := by
  cases u with
  | none => exact h
  | some u => exact hsInsert_nodup h

theorem insertConnUuids_mono {acc : List String} {y : String}
    (cs : List NmConnection) (h : y ∈ acc) : y ∈ insertConnUuids acc cs :=
  foldl_mem_mono (fun _ _ ha => insertUuid_mono _ ha) cs acc h

theorem insertConnUuids_nodup {acc : List String} (cs : List NmConnection)
    (h : acc.Nodup) : (insertConnUuids acc cs).Nodup :=
  foldl_nodup_pres (fun _ _ ha => insertUuid_nodup _ ha) cs acc h

theorem mem_insertConnUuids_of {cs : List NmConnection} {c : NmConnection}
    {u : String} (hc : c ∈ cs) (hu : c.uuid = some u) (acc : List String) :
    u ∈ insertConnUuids acc cs := by
  refine foldl_mem_of_elem (fun _ _ ha => insertUuid_mono _ ha)
    (fun acc2 => ?_) cs hc acc
  rw [hu]
  exact mem_hsInsert_self _ _

theorem connDeleteStep_super {allConns : List NmConnection}
    {acc : List String} {y : String} {c : NmConnection}
    (h : y ∈ insertUuid acc c.uuid) :
    y ∈ connDeleteStep allConns acc c := by
  unfold connDeleteStep
  split
  · split
    · split
      · exact mem_hsInsert_of_mem _ h
      · exact insertConnUuids_mono _ h
    · exact h
  · exact h

theorem connDeleteStep_mono {allConns : List NmConnection}
    {acc : List String} {y : String} (c : NmConnection) (h : y ∈ acc) :
    y ∈ connDeleteStep allConns acc c :=
  connDeleteStep_super (insertUuid_mono _ h)

theorem connDeleteStep_own {allConns : List NmConnection}
    {acc : List String} {c : NmConnection} {u : String}
    (hu : c.uuid = some u) : u ∈ connDeleteStep allConns acc c := by
  apply connDeleteStep_super
  rw [hu]
  exact mem_hsInsert_self _ _

theorem connDeleteStep_nodup {allConns : List NmConnection}
    {acc : List String} (c : NmConnection) (h : acc.Nodup) :
    (connDeleteStep allConns acc c).Nodup := by
  unfold connDeleteStep
  have h1 : (insertUuid acc c.uuid).Nodup := insertUuid_nodup _ h
  split
  · split
    · split
      · exact hsInsert_nodup h1
      · exact insertConnUuids_nodup _ h1
    · exact h1
  · exact h1

theorem connDeleteStep_ctrl_uuid {allConns : List NmConnection}
    {acc : List String} {c : NmConnection} {ctrl : String}
    (hct : c.controller_type = some NmIfaceType.OvsPort)
    (hcc : c.controller = some ctrl) (hu : is_uuid ctrl = true) :
    ctrl ∈ connDeleteStep allConns acc c := by
  unfold connDeleteStep
  rw [if_pos hct, hcc]
  show ctrl ∈ if is_uuid ctrl then _ else _
  rw [hu]
  simp only [if_true]
  exact mem_hsInsert_self _ _

theorem connDeleteStep_ctrl_named {allConns : List NmConnection}
    {acc : List String} {c c2 : NmConnection} {ctrl u : String}
    (hct : c.controller_type = some NmIfaceType.OvsPort)
    (hcc : c.controller = some ctrl) (hu : is_uuid ctrl = false)
    (hc2 : c2 ∈ connsByNameType allConns ctrl NmIfaceType.OvsPort)
    (hu2 : c2.uuid = some u) :
    u ∈ connDeleteStep allConns acc c := by
  unfold connDeleteStep
  rw [if_pos hct, hcc]
  show u ∈ if is_uuid ctrl then _ else _
  rw [hu]
  simp only [Bool.false_eq_true, if_false]
  exact mem_insertConnUuids_of hc2 hu2 _

theorem ifaceDeleteStep_mono {allConns : List NmConnection}
    {acc : List String} {y : String} (mi : MergedIface) (h : y ∈ acc) :
    y ∈ ifaceDeleteStep allConns acc mi := by
  unfold ifaceDeleteStep
  split
  · exact insertConnUuids_mono _ h
  · exact foldl_mem_mono (fun _ x ha => connDeleteStep_mono x ha) _ _ h

theorem ifaceDeleteStep_nodup {allConns : List NmConnection}
    {acc : List String} (mi : MergedIface) (h : acc.Nodup) :
    (ifaceDeleteStep allConns acc mi).Nodup := by
  unfold ifaceDeleteStep
  split
  · exact insertConnUuids_nodup _ h
  · exact foldl_nodup_pres (fun _ x ha => connDeleteStep_nodup x ha) _ _ h

theorem ifaceDeleteStep_from_conn {allConns : List NmConnection}
    {mi : MergedIface} {c : NmConnection} {y : String}
    (hni : mi.merged.iface_type ≠ InterfaceType.Ipsec)
    (hc : c ∈ matchedConns allConns mi)
    (helem : ∀ acc, y ∈ connDeleteStep allConns acc c) :
    ∀ acc, y ∈ ifaceDeleteStep allConns acc mi := by
  intro acc
  unfold ifaceDeleteStep
  rw [if_neg hni]
  exact foldl_mem_of_elem (fun _ x ha => connDeleteStep_mono x ha)
    helem _ hc acc

theorem deleteIfacesUuids_from_iface {ms : List MergedIface}
    {allConns : List NmConnection} {mi : MergedIface} {y : String}
    (hmi : mi ∈ ms) (hch : mi.is_changed = true)
    (hab : mi.merged.is_absent = true)
    (helem : ∀ acc, y ∈ ifaceDeleteStep allConns acc mi) :
    y ∈ deleteIfacesUuids ms allConns := by
  unfold deleteIfacesUuids
  refine foldl_mem_of_elem (fun _ x ha => ifaceDeleteStep_mono x ha)
    helem _ ?_ []
  exact List.mem_filter.mpr ⟨hmi, by simp [hch, hab]⟩

theorem deleteIfacesUuids_nodup (ms : List MergedIface)
    (allConns : List NmConnection) : (deleteIfacesUuids ms allConns).Nodup :=
  foldl_nodup_pres (fun _ x ha => ifaceDeleteStep_nodup x ha) _ _
    List.nodup_nil

theorem orphanPortStep_src {del acc : List String} {c : NmConnection}
    {u : String} (h : u ∈ orphanPortStep del acc c) :
    u ∈ acc ∨ c.uuid = some u := by
  unfold orphanPortStep at h
  split at h
  · split at h
    · split at h
      · unfold pushUuid at h
        split at h
        · next u2 heq =>
            rcases List.mem_append.mp h with hm | hm
            · exact Or.inl hm
            · simp only [List.mem_singleton] at hm
              subst hm
              exact Or.inr heq
        · exact Or.inl h
      · exact Or.inl h
    · exact Or.inl h
  · exact Or.inl h

theorem orphanPortStep_mono {del acc : List String} {y : String}
    (c : NmConnection) (h : y ∈ acc) : y ∈ orphanPortStep del acc c := by
  unfold orphanPortStep
  split
  · split
    · split
      · unfold pushUuid
        split
        · exact List.mem_append.mpr (Or.inl h)
        · exact h
      · exact h
    · exact h
  · exact h

theorem orphanPortStep_elem {del acc : List String} {c : NmConnection}
    {ctrl u : String} (hty : c.iface_type = some NmIfaceType.OvsPort)
    (hcc : c.controller = some ctrl) (hdel : ctrl ∈ del)
    (hu : c.uuid = some u) : u ∈ orphanPortStep del acc c := by
  unfold orphanPortStep
  rw [if_pos hty, hcc]
  show u ∈ if ctrl ∈ del then _ else _
  rw [if_pos hdel]
  unfold pushUuid
  rw [hu]
  exact List.mem_append.mpr (Or.inr (by simp))

theorem mem_orphan_src {del : List String} {u : String} :
    ∀ (rem : List NmConnection) (acc : List String),
      u ∈ rem.foldl (orphanPortStep del) acc →
      u ∈ acc ∨ ∃ c, c ∈ rem ∧ c.uuid = some u := by
  intro rem
  induction rem with
  | nil => exact fun acc h => Or.inl h
  | cons a t ih =>
    intro acc h
    rcases ih _ h with hm | ⟨c, hc, hcu⟩
    · rcases orphanPortStep_src hm with hm2 | hm2
      · exact Or.inl hm2
      · exact Or.inr ⟨a, by simp, hm2⟩
    · exact Or.inr ⟨c, by simp [hc], hcu⟩

theorem remaining_uuid_not_deleted {all : List NmConnection}
    {del : List String} {c : NmConnection} {u : String}
    (hc : c ∈ remainingConns all del) (hu : c.uuid = some u) : u ∉ del := by
  obtain ⟨_, hp⟩ := List.mem_filter.mp hc
  rw [hu] at hp
  simpa using hp

/-- C6: the deletion pass computes a duplicate-free delete set; every
matched profile's uuid is in it, and a matched profile whose controller
type is OvsPort also contributes its controller profile (directly by
uuid, or via the (name, OvsPort) index); after deletion, any remaining
OvsPort profile whose controller uuid was deleted is deleted in turn,
and a uuid deleted directly appears exactly once across the direct and
orphan delete lists. -/
theorem delete_ifaces_delete_set_spec (ms : List MergedIface)
    (allConns : List NmConnection) :
    (deleteIfacesUuids ms allConns).Nodup
    ∧ (∀ mi ∈ ms, mi.is_changed = true → mi.merged.is_absent = true →
        mi.merged.iface_type ≠ InterfaceType.Ipsec →
        ∀ c ∈ matchedConns allConns mi,
          (∀ u, c.uuid = some u → u ∈ deleteIfacesUuids ms allConns)
          ∧ (c.controller_type = some NmIfaceType.OvsPort →
            ∀ ctrl, c.controller = some ctrl →
              (is_uuid ctrl = true → ctrl ∈ deleteIfacesUuids ms allConns)
              ∧ (is_uuid ctrl = false →
                ∀ c2 ∈ connsByNameType allConns ctrl NmIfaceType.OvsPort,
                  ∀ u, c2.uuid = some u →
                    u ∈ deleteIfacesUuids ms allConns)))
    ∧ (∀ c ∈ remainingConns allConns (deleteIfacesUuids ms allConns),
        c.iface_type = some NmIfaceType.OvsPort →
        ∀ ctrl, c.controller = some ctrl →
          ctrl ∈ deleteIfacesUuids ms allConns →
          ∀ u, c.uuid = some u →
            u ∈ deleteOrphanPortsUuids
              (remainingConns allConns (deleteIfacesUuids ms allConns))
              (deleteIfacesUuids ms allConns))
    ∧ (∀ u ∈ deleteIfacesUuids ms allConns,
        List.count u
          (deleteIfacesUuids ms allConns
            ++ deleteOrphanPortsUuids
              (remainingConns allConns (deleteIfacesUuids ms allConns))
              (deleteIfacesUuids ms allConns)) = 1) := by
  refine ⟨deleteIfacesUuids_nodup ms allConns, ?_, ?_, ?_⟩
  · intro mi hmi hch hab hni c hc
    constructor
    · intro u hu
      exact deleteIfacesUuids_from_iface hmi hch hab
        (ifaceDeleteStep_from_conn hni hc fun _ => connDeleteStep_own hu)
    · intro hct ctrl hcc
      constructor
      · intro hu
        exact deleteIfacesUuids_from_iface hmi hch hab
          (ifaceDeleteStep_from_conn hni hc
            fun _ => connDeleteStep_ctrl_uuid hct hcc hu)
      · intro hu c2 hc2 u hu2
        exact deleteIfacesUuids_from_iface hmi hch hab
          (ifaceDeleteStep_from_conn hni hc
            fun _ => connDeleteStep_ctrl_named hct hcc hu hc2 hu2)
  · intro c hc hty ctrl hcc hdel u hu
    unfold deleteOrphanPortsUuids
    exact foldl_mem_of_elem (fun _ x ha => orphanPortStep_mono x ha)
      (fun _ => orphanPortStep_elem hty hcc hdel hu) _ hc []
  · intro u hu
    rw [List.count_append]
    have h1 : (deleteIfacesUuids ms allConns).count u = 1 :=
      List.count_eq_one_of_mem (deleteIfacesUuids_nodup ms allConns) hu
    have h2 : (deleteOrphanPortsUuids
        (remainingConns allConns (deleteIfacesUuids ms allConns))
        (deleteIfacesUuids ms allConns)).count u = 0 := by
      rw [List.count_eq_zero]
      intro hmem
      rcases mem_orphan_src _ [] hmem with hm | ⟨c, hc, hcu⟩
      · cases hm
      · exact remaining_uuid_not_deleted hc hcu hu
    rw [h1, h2]

/-- Witness for C6 at a concrete absent OVS interface whose profile
names its OVS port controller by uuid. -/
theorem delete_ifaces_delete_set_spec_witness :
    miW.is_changed = true
    ∧ uuid2W ∈ deleteIfacesUuids [miW] connsW
    ∧ List.count uuid2W
        (deleteIfacesUuids [miW] connsW
          ++ deleteOrphanPortsUuids
            (remainingConns connsW (deleteIfacesUuids [miW] connsW))
            (deleteIfacesUuids [miW] connsW)) = 1 := by
  have hspec := delete_ifaces_delete_set_spec [miW] connsW
  have hmem : uuid2W ∈ deleteIfacesUuids [miW] connsW :=
    (((hspec.2.1 miW (by decide) rfl (by decide) (by decide) connW1
      (by decide)).2 (by decide) uuid2W rfl).1 (by decide))
  exact ⟨rfl, hmem, hspec.2.2.2 uuid2W hmem⟩
